import Mathlib

/-!
Formal model of the agent-IAM service (Rust sources under src/), as a shallow
embedding in Lean 4.  Pure functions of the source are translated to Lean
functions; stateful code is translated to explicit state passing; machine
integers become Nat/Int; fallible code returns Except.  External capabilities
(the HMAC primitive, the Argon2 verifier, the Cedar parser/evaluator and the
biscuit authorizer world) are either modelled concretely from their documented
semantics or passed as explicit function parameters, exactly where the source
treats them as opaque.
-/

/-- UUIDs are modelled as natural numbers (only identity and equality of
UUIDs matter to the properties under study). -/
abbrev Uuid := Nat

/-- Model of the AppError enum in src/src/errors.rs (only the constructors
reached by the modelled code paths; badRequest mirrors the AppError::BadRequest
variant referenced by src/src/api/authz.rs). -/
inductive AppError where
  | invalidCredentials
  | tokenGeneration (msg : String)
  | tokenValidation (msg : String)
  | tokenExpired
  | tokenRevoked
  | unauthorized
  | identityNotFound
  | validationError (msg : String)
  | badRequest (msg : String)
  | internal (msg : String)
deriving DecidableEq, Repr

/-!  JWT manager, from src/src/auth/jwt.rs.

A compact HS256 token is modelled as its decoded claims together with the MAC
over them; the HMAC-SHA256 primitive of the jsonwebtoken crate is passed as an
opaque parameter (mac), since only agreement between signing and verifying
matters to the claims under study. -/

/-- JwtClaims of src/src/auth/jwt.rs (custom claims omitted: they are never
set by the code under study; sub and tenant_id hold UUID strings, modelled as
the Uuid itself). -/
structure JwtClaims where
  sub : Uuid
  tenant_id : Uuid
  identity_type : String
  iat : Int
  exp : Int
  jti : Uuid
  iss : String
  aud : List String
deriving DecidableEq, Repr

/-- JwtClaims::new: now and the random jti are passed explicitly. -/
def JwtClaims.new (identity_id : Uuid) (tenant_id : Uuid) (identity_type : String)
    (duration_seconds : Int) (now : Int) (jti : Uuid) : JwtClaims :=
  { sub := identity_id
    tenant_id := tenant_id
    identity_type := identity_type
    iat := now
    exp := now + duration_seconds
    jti := jti
    iss := "agent-iam"
    aud := ["agent-iam-api"] }

/-- JwtClaims::is_expired: exp less or equal now. -/
def JwtClaims.isExpired (c : JwtClaims) (now : Int) : Bool :=
  c.exp ≤ now

/-- A signed HS256 token: claims plus the MAC value over header and payload. -/
structure Hs256Token where
  claims : JwtClaims
  sig : Nat
deriving DecidableEq, Repr

/-- Error kinds of jsonwebtoken decode that the modelled paths can reach. -/
inductive JwtDecodeError where
  | invalidSignature
  | invalidIssuer
  | invalidAudience
  | expiredSignature
deriving DecidableEq, Repr

/-- Display text of the jsonwebtoken error kinds (used in the formatted
TokenValidation message). -/
def JwtDecodeError.message : JwtDecodeError → String
  | .invalidSignature => "InvalidSignature"
  | .invalidIssuer => "InvalidIssuer"
  | .invalidAudience => "InvalidAudience"
  | .expiredSignature => "ExpiredSignature"

/-- jsonwebtoken decode with Validation::new(HS256), set_issuer(agent-iam),
set_audience(agent-iam-api): signature, iss, aud are checked, and with
validate_exp (on by default) a token with exp < now - leeway is rejected with
ExpiredSignature.  The leeway (60 seconds by default in the crate) is a
parameter. -/
def jwtDecode (mac : String → JwtClaims → Nat) (secret : String) (leeway : Int)
    (now : Int) (token : Hs256Token) : Except JwtDecodeError JwtClaims :=
  if token.sig ≠ mac secret token.claims then .error .invalidSignature
  else if token.claims.iss ≠ "agent-iam" then .error .invalidIssuer
  else if ¬ token.claims.aud.contains "agent-iam-api" then .error .invalidAudience
  else if token.claims.exp < now - leeway then .error .expiredSignature
  else .ok token.claims

/-- JwtManager::generate_access_token: builds JwtClaims::new and signs. -/
def generateAccessToken (mac : String → JwtClaims → Nat) (secret : String)
    (accessTokenExpiration : Int) (identity_id tenant_id : Uuid)
    (identity_type : String) (now : Int) (jti : Uuid) : Hs256Token :=
  let claims := JwtClaims.new identity_id tenant_id identity_type
    accessTokenExpiration now jti
  { claims := claims, sig := mac secret claims }

/-- JwtManager::validate_access_token: decode (signature, iss, aud and the
decoder exp check), every decode error mapped to TokenValidation with the
formatted message, then the additional is_expired check mapped to
TokenExpired. -/
def validateAccessToken (mac : String → JwtClaims → Nat) (secret : String)
    (leeway : Int) (now : Int) (token : Hs256Token) :
    Except AppError JwtClaims :=
  match jwtDecode mac secret leeway now token with
  | .error e => .error (.tokenValidation ("Failed to decode JWT: " ++ e.message))
  | .ok claims =>
    if claims.isExpired now then .error .tokenExpired
    else .ok claims

/-!  Sessions, the Redis revocation set, and logout, from src/src/api/auth.rs
and src/src/redis/revocation.rs. -/

/-- A sessions row (the columns touched by logout). -/
structure SessionRow where
  token_id : Uuid
  revoked_at : Option Int
deriving DecidableEq, Repr

/-- The stateful world that logout touches: the sessions table and the set of
jti values present under a revoked: key in Redis. -/
structure AuthState where
  sessions : List SessionRow
  revoked : List Uuid
deriving DecidableEq, Repr

/-- revocation::revoke_token: SET EX on the revoked: key, i.e. the jti joins
the revocation set (TTL bookkeeping does not matter to the claims). -/
def revokeTokenRedis (revoked : List Uuid) (tokenId : Uuid) : List Uuid :=
  tokenId :: revoked

/-- POST /v1/auth/logout core (src/src/api/auth.rs lines 183-244), with header
extraction and config loading abstracted away: validate the bearer as an
access token, mark the matching un-revoked session row, and when the residual
TTL is positive insert the jti in the Redis revocation set. -/
def logout (mac : String → JwtClaims → Nat) (secret : String) (leeway : Int)
    (st : AuthState) (now : Int) (token : Hs256Token) :
    Except AppError AuthState :=
  match validateAccessToken mac secret leeway now token with
  | .error e => .error e
  | .ok claims =>
    let tokenId := claims.jti
    let sessions := st.sessions.map fun s =>
      if s.token_id = tokenId ∧ s.revoked_at = none then
        { s with revoked_at := some now }
      else s
    let ttlSeconds := max (claims.exp - now) 0
    let revoked :=
      if ttlSeconds > 0 then revokeTokenRedis st.revoked tokenId else st.revoked
    .ok { sessions := sessions, revoked := revoked }

/-!  Tamper-proof hash chain, from src/src/audit/tamper_proof.rs.

The canonical representation is a pipe-separated string hashed with SHA-256
and hex encoded.  SHA-256 is implemented below over byte lists with Nat
arithmetic modulo 2 to the 32. -/

/-- JSON values (model of serde_json::Value; object keys are kept in the
canonical sorted order that the serde_json BTreeMap iterates in). -/
inductive Json where
  | null
  | bool (b : Bool)
  | num (n : Int)
  | str (s : String)
  | arr (items : List Json)
  | obj (fields : List (String × Json))

mutual

/-- Compact serde_json::to_string rendering (string contents are assumed to
need no escaping; none of the properties below depend on escaping). -/
def Json.render : Json → String
  | .null => "null"
  | .bool true => "true"
  | .bool false => "false"
  | .num n => toString n
  | .str s => "\"" ++ s ++ "\""
  | .arr items => "[" ++ Json.renderItems items ++ "]"
  | .obj fields => "\x7b" ++ Json.renderFields fields ++ "\x7d"

/-- Comma-separated rendering of array items. -/
def Json.renderItems : List Json → String
  | [] => ""
  | [x] => Json.render x
  | x :: y :: xs => Json.render x ++ "," ++ Json.renderItems (y :: xs)

/-- Comma-separated rendering of object fields. -/
def Json.renderFields : List (String × Json) → String
  | [] => ""
  | [(k, v)] => "\"" ++ k ++ "\":" ++ Json.render v
  | (k, v) :: y :: xs =>
    "\"" ++ k ++ "\":" ++ Json.render v ++ "," ++ Json.renderFields (y :: xs)

end

/-- Truncation to 32 bits. -/
def w32 (n : Nat) : Nat := n % 4294967296

/-- Right rotation of a 32-bit word (valid for x below 2 to the 32). -/
def rotr32 (n x : Nat) : Nat := (x % 2 ^ n) * 2 ^ (32 - n) + x / 2 ^ n

/-- The 64 SHA-256 round constants. -/
def sha256K : List Nat :=
  [1116352408, 1899447441, 3049323471, 3921009573,
   961987163, 1508970993, 2453635748, 2870763221,
   3624381080, 310598401, 607225278, 1426881987,
   1925078388, 2162078206, 2614888103, 3248222580,
   3835390401, 4022224774, 264347078, 604807628,
   770255983, 1249150122, 1555081692, 1996064986,
   2554220882, 2821834349, 2952996808, 3210313671,
   3336571891, 3584528711, 113926993, 338241895,
   666307205, 773529912, 1294757372, 1396182291,
   1695183700, 1986661051, 2177026350, 2456956037,
   2730485921, 2820302411, 3259730800, 3345764771,
   3516065817, 3600352804, 4094571909, 275423344,
   430227734, 506948616, 659060556, 883997877,
   958139571, 1322822218, 1537002063, 1747873779,
   1955562222, 2024104815, 2227730452, 2361852424,
   2428436474, 2756734187, 3204031479, 3329325298]

/-- The SHA-256 initial hash values. -/
def sha256H0 : List Nat :=
  [1779033703, 3144134277, 1013904242, 2773480762,
   1359893119, 2600822924, 528734635, 1541459225]

/-- Big-endian byte rendering of n over w bytes. -/
def natToBEBytes (w n : Nat) : List Nat :=
  (List.range w).map fun i => n / 256 ^ (w - 1 - i) % 256

/-- SHA-256 padding: append 0x80, zeros up to 56 mod 64, then the bit length
over 8 big-endian bytes. -/
def sha256Pad (msg : List Nat) : List Nat :=
  let L := msg.length
  let zeros := (64 + 56 - (L + 1) % 64) % 64
  msg ++ [0x80] ++ List.replicate zeros 0 ++ natToBEBytes 8 (L * 8)

/-- Split a byte list into 64-byte chunks. -/
def chunks64 : List Nat → List (List Nat)
  | [] => []
  | x :: xs => ((x :: xs).take 64) :: chunks64 ((x :: xs).drop 64)
termination_by l => l.length
decreasing_by simp [List.drop]; omega

/-- Group bytes into big-endian 32-bit words. -/
def words32 : List Nat → List Nat
  | a :: b :: c :: d :: rest => (((a * 256 + b) * 256 + c) * 256 + d) :: words32 rest
  | _ => []

/-- SHA-256 message schedule: extend 16 words to 64. -/
def sha256Schedule (ws : List Nat) : Array Nat :=
  (List.range 48).foldl
    (fun arr j =>
      let i := j + 16
      let w15 := arr.getD (i - 15) 0
      let w2 := arr.getD (i - 2) 0
      let s0 := rotr32 7 w15 ^^^ rotr32 18 w15 ^^^ w15 / 2 ^ 3
      let s1 := rotr32 17 w2 ^^^ rotr32 19 w2 ^^^ w2 / 2 ^ 10
      arr.push (w32 (arr.getD (i - 16) 0 + s0 + arr.getD (i - 7) 0 + s1)))
    ws.toArray

/-- One SHA-256 compression round over an eight-word state. -/
def sha256Round (w : Array Nat) (st : Nat × Nat × Nat × Nat × Nat × Nat × Nat × Nat)
    (i : Nat) : Nat × Nat × Nat × Nat × Nat × Nat × Nat × Nat :=
  let (a, b, c, d, e, f, g, h) := st
  let S1 := rotr32 6 e ^^^ rotr32 11 e ^^^ rotr32 25 e
  let ch := (e &&& f) ^^^ ((4294967295 - e) &&& g)
  let temp1 := w32 (h + S1 + ch + sha256K.getD i 0 + w.getD i 0)
  let S0 := rotr32 2 a ^^^ rotr32 13 a ^^^ rotr32 22 a
  let maj := (a &&& b) ^^^ (a &&& c) ^^^ (b &&& c)
  let temp2 := w32 (S0 + maj)
  (w32 (temp1 + temp2), a, b, c, w32 (d + temp1), e, f, g)

/-- SHA-256 compression of one 64-byte chunk into the running digest. -/
def sha256Compress (hs : List Nat) (chunk : List Nat) : List Nat :=
  let w := sha256Schedule (words32 chunk)
  let init := (hs.getD 0 0, hs.getD 1 0, hs.getD 2 0, hs.getD 3 0,
               hs.getD 4 0, hs.getD 5 0, hs.getD 6 0, hs.getD 7 0)
  let (a, b, c, d, e, f, g, h) := (List.range 64).foldl (sha256Round w) init
  [w32 (hs.getD 0 0 + a), w32 (hs.getD 1 0 + b), w32 (hs.getD 2 0 + c),
   w32 (hs.getD 3 0 + d), w32 (hs.getD 4 0 + e), w32 (hs.getD 5 0 + f),
   w32 (hs.getD 6 0 + g), w32 (hs.getD 7 0 + h)]

/-- SHA-256 digest of a byte list, as 32 bytes. -/
def sha256Bytes (msg : List Nat) : List Nat :=
  (((chunks64 (sha256Pad msg)).foldl sha256Compress sha256H0).map
    (natToBEBytes 4)).flatten

/-- Lower-case hex digit. -/
def hexDigit (n : Nat) : Char :=
  if n < 10 then Char.ofNat (48 + n) else Char.ofNat (87 + n)

/-- Lower-case hex rendering of one byte. -/
def byteToHex (b : Nat) : String :=
  String.mk [hexDigit (b / 16), hexDigit (b % 16)]

/-- Hex encoding of a byte list. -/
def hexEncode (bs : List Nat) : String :=
  String.join (bs.map byteToHex)

/-- Hex-encoded SHA-256 of the UTF-8 bytes of a string (64 characters). -/
def sha256Hex (s : String) : String :=
  hexEncode (sha256Bytes (s.toUTF8.toList.map (fun b => b.toNat)))

/-- HashableEvent of src/src/audit/tamper_proof.rs. -/
structure HashableEvent where
  id : Uuid
  tenant_id : Uuid
  actor_identity_id : Option Uuid
  event_type : String
  action : String
  resource_type : String
  resource_id : Option String
  decision : Option String
  timestamp : String
  previous_hash : Option String
  metadata : Json

/-- HashChain::canonicalize: deterministic pipe-separated field rendering. -/
def canonicalize (e : HashableEvent) : String :=
  String.intercalate "|"
    [ "id=" ++ toString e.id
    , "tenant_id=" ++ toString e.tenant_id
    , (match e.actor_identity_id with
       | some a => "actor_identity_id=" ++ toString a
       | none => "actor_identity_id=null")
    , "event_type=" ++ e.event_type
    , "action=" ++ e.action
    , "resource_type=" ++ e.resource_type
    , (match e.resource_id with
       | some r => "resource_id=" ++ r
       | none => "resource_id=null")
    , (match e.decision with
       | some d => "decision=" ++ d
       | none => "decision=null")
    , "timestamp=" ++ e.timestamp
    , (match e.previous_hash with
       | some p => "previous_hash=" ++ p
       | none => "previous_hash=null")
    , "metadata=" ++ e.metadata.render ]

/-- HashChain::compute_hash: hex-encoded SHA-256 of the canonical form. -/
def computeHash (e : HashableEvent) : String :=
  sha256Hex (canonicalize e)

/-- The loop of HashChain::verify_chain, carrying the expected previous
hash. -/
def verifyFrom (prev : Option String) : List HashableEvent → Bool
  | [] => true
  | e :: rest =>
    if e.previous_hash = prev then verifyFrom (some (computeHash e)) rest
    else false

/-- HashChain::verify_chain: empty chains verify; a first event with a
previous hash fails; otherwise walk the chain comparing each previous_hash
with the hash of the predecessor. -/
def verifyChain (events : List HashableEvent) : Bool :=
  match events with
  | [] => true
  | e :: _ =>
    if e.previous_hash.isSome then false
    else verifyFrom none events

/-- The loop of HashChain::find_chain_break, carrying the expected previous
hash and the running index. -/
def findBreakFrom (prev : Option String) (idx : Nat) :
    List HashableEvent → Option Nat
  | [] => none
  | e :: rest =>
    if e.previous_hash = prev then findBreakFrom (some (computeHash e)) (idx + 1) rest
    else some idx

/-- HashChain::find_chain_break: none for valid chains, else the index of the
first event at which the chain breaks. -/
def findChainBreak (events : List HashableEvent) : Option Nat :=
  match events with
  | [] => none
  | e :: _ =>
    if e.previous_hash.isSome then some 0
    else findBreakFrom none 0 events

/-!  Audit pipeline batch persistence, from src/src/audit/logger.rs. -/

/-- AuditEvent of src/src/domain/audit.rs (event_type and decision are kept
as their as_str renderings; timestamp as its RFC3339 rendering). -/
structure AuditEvent where
  tenant_id : Uuid
  actor_identity_id : Option Uuid
  delegation_chain : Option Json
  event_type : String
  action : String
  resource_type : String
  resource_id : Option String
  decision : Option String
  decision_reason : Option String
  request_id : Option Uuid
  ip_address : Option String
  user_agent : Option String
  metadata : Json
  timestamp : String

/-- PersistedAuditEvent of src/src/domain/audit.rs. -/
structure PersistedAuditEvent where
  id : Uuid
  event : AuditEvent
  signature : Option String
  previous_event_hash : Option String

/-- The event conversion inside flush_batch (src/src/audit/logger.rs lines
134-142): each queued event is wrapped with a fresh id, signature None and
previous_event_hash None; freshId models the per-event Uuid::new_v4 draw. -/
def flushBatchPersist (freshId : Nat → Uuid) (batch : List AuditEvent) :
    List PersistedAuditEvent :=
  batch.enum.map fun p =>
    { id := freshId p.1
      event := p.2
      signature := none
      previous_event_hash := none }

/-!  Sliding-window rate limiter, from src/src/rate_limit/sliding_window.rs.

The Redis sorted set under the rate-limit key is modelled as the list of its
member scores (rational seconds: the Lua script adds now plus a microsecond
fraction).  The Lua script runs atomically, so it is one Lean function from
the old set to the new set and the four returned integers. -/

/-- Minimum score of the set (ZRANGE key 0 0 WITHSCORES). -/
def minScore : List ℚ → Option ℚ
  | [] => none
  | x :: xs =>
    some (match minScore xs with
          | none => x
          | some m => min x m)

/-- ZADD key score member with member equal to score: a sorted set keeps
members unique, so a present score is left as is. -/
def zaddScore (set : List ℚ) (score : ℚ) : List ℚ :=
  if score ∈ set then set else score :: set

/-- The Lua script of check_and_increment: prune scores at or below the
window start, count, then either admit (adding the unique score) or deny
(reporting the reset derived from the oldest member).  Returns the new set
and the four script results (allowed flag, current, remaining, reset). -/
def slidingWindowScript (set : List ℚ) (now windowStart limit windowSeconds : Nat)
    (uniqueScore : ℚ) : List ℚ × Int × Int × Int × Int :=
  let pruned := set.filter fun s => ¬ s ≤ (windowStart : ℚ)
  let current := pruned.length
  if current < limit then
    let newSet := zaddScore pruned uniqueScore
    (newSet, 1, (current : Int) + 1, (limit : Int) - ((current : Int) + 1),
     (now : Int) + (windowSeconds : Int))
  else
    let reset :=
      match minScore pruned with
      | some s0 => Int.ceil s0 + (windowSeconds : Int)
      | none => ((windowStart : Int) + (windowSeconds : Int))
    (pruned, 0, (current : Int), 0, reset)

/-- RateLimitResult of src/src/rate_limit/sliding_window.rs; the numeric
fields keep the i64 script values (the Rust struct stores them as u64, which
coincides on the non-negative values the script produces). -/
structure RateLimitResult where
  allowed : Bool
  limit : Nat
  remaining : Int
  reset : Int
  current : Int
deriving DecidableEq, Repr

/-- SlidingWindowRateLimiter::check_and_increment: window_start is the
saturating subtraction now - window_seconds (Nat subtraction saturates
exactly like u64 saturating_sub), then the atomic script. -/
def checkAndIncrement (set : List ℚ) (limit windowSeconds : Nat) (now : Nat)
    (uniqueScore : ℚ) : List ℚ × RateLimitResult :=
  let windowStart := now - windowSeconds
  let (newSet, flag, current, remaining, reset) :=
    slidingWindowScript set now windowStart limit windowSeconds uniqueScore
  (newSet,
   { allowed := flag = 1
     limit := limit
     remaining := remaining
     reset := reset
     current := current })

/-!  Identity domain and JIT agent provisioning, from src/src/domain/identity.rs.

The identities table is modelled as a list of rows; the recursive CTE that
computes the delegation depth becomes a fuel-bounded walk over parent links
with the same depth guard of 100. -/

/-- IdentityType of src/src/db/schema.rs. -/
inductive IdentityType where
  | user
  | service
  | agent
deriving DecidableEq, Repr

/-- An identities row (the columns the modelled paths read or write). -/
structure Identity where
  id : Uuid
  tenant_id : Uuid
  identity_type : IdentityType
  name : String
  email : Option String
  status : String
  parent_identity_id : Option Uuid
  task_id : Option String
  expires_at : Option Int
  password_hash : Option String
deriving DecidableEq, Repr

/-- Row lookup by primary key (get_identity_by_id without the error case). -/
def findIdentity (store : List Identity) (id : Uuid) : Option Identity :=
  store.find? fun i => i.id = id

/-- calculate_delegation_depth: the recursive CTE walks parent links from the
given identity, guarded at depth 100; absent rows and absent parents stop the
walk (depth 0 for roots). -/
def delegationDepthAux (store : List Identity) : Nat → Uuid → Nat
  | 0, _ => 0
  | fuel + 1, id =>
    match findIdentity store id with
    | none => 0
    | some ident =>
      match ident.parent_identity_id with
      | none => 0
      | some pid => delegationDepthAux store fuel pid + 1

/-- calculate_delegation_depth with the depth guard of the CTE. -/
def calculateDelegationDepth (store : List Identity) (id : Uuid) : Nat :=
  delegationDepthAux store 100 id

/-- Rust str::trim: remove leading and trailing whitespace (implemented over
the character list so that it evaluates inside proofs). -/
def strTrim (s : String) : String :=
  String.mk (((s.data.dropWhile Char.isWhitespace).reverse.dropWhile
    Char.isWhitespace).reverse)

/-- AgentProvisionRequest of src/src/domain/identity.rs (task_scope and
metadata do not affect the modelled checks and are omitted). -/
structure AgentProvisionRequest where
  parent_identity_id : Uuid
  task_id : String
  name : String
  ttl_seconds : Option Int
deriving DecidableEq, Repr

/-- AgentProvisionResult of src/src/domain/identity.rs. -/
structure AgentProvisionResult where
  agent_identity : Identity
  delegation_depth : Int
deriving DecidableEq, Repr

/-- provision_agent (src/src/domain/identity.rs lines 165-259) followed by
IdentityBuilder::build: parent lookup, tenant check, active check, depth cap,
TTL validation with default 3600, expiry clamped to the parent expiry, then
the builder validation (an agent has a parent; the name must be non-blank)
and the insert, which returns the new row with status active.  The fresh row
id newId models the database-assigned primary key. -/
def provisionAgent (store : List Identity) (tenant_id : Uuid)
    (request : AgentProvisionRequest) (now : Int) (newId : Uuid) :
    Except AppError AgentProvisionResult :=
  match findIdentity store request.parent_identity_id with
  | none => .error .identityNotFound
  | some parent =>
    if parent.tenant_id ≠ tenant_id then
      .error (.validationError "Parent identity must be in same tenant")
    else if parent.status ≠ "active" then
      .error (.validationError "Parent identity is not active")
    else
      let delegation_depth := calculateDelegationDepth store parent.id
      if delegation_depth ≥ 10 then
        .error (.validationError "Maximum delegation depth of 10 exceeded")
      else
        let ttl_seconds := request.ttl_seconds.getD 3600
        if ttl_seconds < 60 ∨ ttl_seconds > 86400 then
          .error (.validationError "TTL must be between 60 and 86400 seconds")
        else
          let expiresUnclamped := now + ttl_seconds
          let expires_at :=
            match parent.expires_at with
            | some parentExpires =>
              if expiresUnclamped > parentExpires then parentExpires
              else expiresUnclamped
            | none => expiresUnclamped
          if strTrim request.name = "" then
            .error (.validationError "Identity name cannot be empty")
          else
            .ok { agent_identity :=
                    { id := newId
                      tenant_id := tenant_id
                      identity_type := .agent
                      name := request.name
                      email := none
                      status := "active"
                      parent_identity_id := some request.parent_identity_id
                      task_id := some request.task_id
                      expires_at := some expires_at
                      password_hash := none }
                  delegation_depth := (delegation_depth : Int) + 1 }

/-!  Login, from src/src/api/auth.rs lines 50-94.

The handler looks an identity up by email with no tenant condition, checks
the status and verifies the password; the Argon2 verifier is an opaque
parameter.  The model returns the authenticated row (the remainder of the
handler mints tokens for exactly that row). -/

/-- The login SELECT: WHERE email = $1, over the whole identities table. -/
def loginFindByEmail (store : List Identity) (email : String) : Option Identity :=
  store.find? fun i => i.email = some email

/-- The authentication prefix of the login handler. -/
def loginAuthenticate (verify : String → String → Bool) (store : List Identity)
    (email password : String) : Except AppError Identity :=
  if email = "" then .error (.validationError "Email is required")
  else if password = "" then .error (.validationError "Password is required")
  else
    match loginFindByEmail store email with
    | none => .error .invalidCredentials
    | some identity =>
      if identity.status ≠ "active" then .error .invalidCredentials
      else
        match identity.password_hash with
        | none => .error .invalidCredentials
        | some hash =>
          if verify password hash then .ok identity
          else .error .invalidCredentials

/-!  Capability (biscuit) token manager, from src/src/auth/biscuit.rs.

A biscuit token is modelled as its datalog facts and checks plus a signature
validity bit (Biscuit::from_base64 verifies every block signature against the
root public key).  The authorizer world is the token facts plus the facts the
authorizer adds; a check passes when a matching fact exists. -/

/-- Datalog facts appearing in the modelled token and authorizer worlds. -/
inductive BiscuitFact where
  | agent (agent_id tenant_id parent_id : Uuid) (task_id : String)
  | taskScope (key value : String)
  | issuedAt (ts : Int)
  | keyId (id : String)
  | time (t : Int)
  | resource (tenant_id : Uuid)
  | operation (op : String)
deriving DecidableEq, Repr

/-- Datalog checks appearing in the modelled tokens: the temporal check
(check if time, time below exp), the tenant isolation check (check if
resource with the right tenant), and attenuation checks requiring an
operation fact. -/
inductive BiscuitCheck where
  | timeBefore (expTs : Int)
  | resourceTenant (tenant_id : Uuid)
  | opEquals (op : String)
deriving DecidableEq, Repr

/-- Satisfaction of one check in a world of facts. -/
def checkPasses (facts : List BiscuitFact) : BiscuitCheck → Bool
  | .timeBefore expTs => facts.any fun f =>
      match f with
      | .time t => t < expTs
      | _ => false
  | .resourceTenant tid => facts.any fun f =>
      match f with
      | .resource t => t = tid
      | _ => false
  | .opEquals op => facts.any fun f =>
      match f with
      | .operation o => o = op
      | _ => false

/-- A deserialized biscuit token: block facts and checks, plus whether every
block signature verifies against the root key. -/
structure BiscuitToken where
  facts : List BiscuitFact
  checks : List BiscuitCheck
  validSig : Bool
deriving DecidableEq, Repr

/-- CreateAgentTokenRequest of src/src/auth/biscuit.rs (expires_at as its
Unix timestamp). -/
structure CreateAgentTokenRequest where
  agent_id : Uuid
  tenant_id : Uuid
  parent_id : Uuid
  task_id : String
  task_scope : List (String × String)
  expires_at : Int
deriving DecidableEq, Repr

/-- BiscuitClaims of src/src/auth/biscuit.rs. -/
structure BiscuitClaims where
  agent_id : Uuid
  tenant_id : Uuid
  parent_id : Uuid
  task_id : String
  task_scope : List (String × String)
  expires_at : Int
  issued_at : Int
  key_id : String
deriving DecidableEq, Repr

/-- BiscuitManager::generate_token: reject a non-future expiry, then build
the authority block with the agent fact, the temporal check, the tenant
isolation check, one task_scope fact per entry, issued_at and key_id, and
sign it (the produced token thus carries a valid signature). -/
def generateBiscuitToken (rootKeyId : String) (request : CreateAgentTokenRequest)
    (now : Int) : Except AppError BiscuitToken :=
  if request.expires_at ≤ now then
    .error (.validationError "Expiration time must be in the future")
  else
    .ok { facts :=
            [BiscuitFact.agent request.agent_id request.tenant_id
               request.parent_id request.task_id] ++
            (request.task_scope.map fun p => BiscuitFact.taskScope p.1 p.2) ++
            [BiscuitFact.issuedAt now, BiscuitFact.keyId rootKeyId]
          checks :=
            [BiscuitCheck.timeBefore request.expires_at,
             BiscuitCheck.resourceTenant request.tenant_id]
          validSig := true }

/-- BiscuitManager::extract_claims: read the agent fact (error when absent),
issued_at (falling back to now), key_id (falling back to the root key id) and
the task_scope facts; expires_at is inferred as issued_at plus 24 hours. -/
def extractBiscuitClaims (rootKeyId : String) (token : BiscuitToken)
    (now : Int) : Except AppError BiscuitClaims :=
  let agentFact := token.facts.findSome? fun f =>
    match f with
    | .agent a t p task => some (a, t, p, task)
    | _ => none
  match agentFact with
  | none => .error (.tokenValidation "No agent facts found in token")
  | some (agent_id, tenant_id, parent_id, task_id) =>
    let issued_at :=
      match (token.facts.findSome? fun f =>
              match f with
              | .issuedAt ts => some ts
              | _ => none) with
      | some ts => ts
      | none => now
    let key_id :=
      match (token.facts.findSome? fun f =>
              match f with
              | .keyId k => some k
              | _ => none) with
      | some k => k
      | none => rootKeyId
    let task_scope := token.facts.filterMap fun f =>
      match f with
      | .taskScope k v => some (k, v)
      | _ => none
    .ok { agent_id := agent_id
          tenant_id := tenant_id
          parent_id := parent_id
          task_id := task_id
          task_scope := task_scope
          expires_at := issued_at + 86400
          issued_at := issued_at
          key_id := key_id }

/-- BiscuitManager::validate_token: signature verification at from_base64,
then an authorizer holding the token facts plus the added time(now) fact
evaluates every check; any failed check surfaces as FailedLogic, which the
source maps to TokenExpired, while a format failure maps to TokenValidation;
finally claims are extracted and the inferred expiry is checked once more. -/
def validateBiscuitToken (rootKeyId : String) (token : BiscuitToken)
    (now : Int) : Except AppError BiscuitClaims :=
  if ¬ token.validSig then .error (.tokenValidation "Invalid token format")
  else
    let world := token.facts ++ [BiscuitFact.time now]
    let failed := token.checks.filter fun c => ¬ checkPasses world c
    if failed ≠ [] then .error .tokenExpired
    else
      match extractBiscuitClaims rootKeyId token now with
      | .error e => .error e
      | .ok claims =>
        if claims.expires_at ≤ now then .error .tokenExpired
        else .ok claims

/-!  Cedar policy engine and the authorization endpoints, from
src/src/authz/engine.rs and src/src/api/authz.rs.

The Cedar parser is an external capability: it is passed as a predicate
parseOk on (policy id, policy text).  A compiled policy set is modelled as
the list of its (id, text) pairs; PolicySet::add rejects a duplicate policy
id. -/

/-- A policies table row (the columns load_policies_from_db reads). -/
structure PolicyRow where
  id : Uuid
  policy_cedar : String
  is_active : Bool
  created_at : Int
deriving DecidableEq, Repr

/-- Stable insertion into a list sorted by created_at. -/
def insertByCreatedAt (p : PolicyRow) : List PolicyRow → List PolicyRow
  | [] => [p]
  | q :: qs =>
    if q.created_at ≤ p.created_at then q :: insertByCreatedAt p qs
    else p :: q :: qs

/-- Sort rows by created_at ascending (ORDER BY created_at ASC). -/
def sortByCreatedAt : List PolicyRow → List PolicyRow
  | [] => []
  | p :: ps => insertByCreatedAt p (sortByCreatedAt ps)

/-- load_policies_from_db: the active rows ordered by created_at, projected
to (id, policy text). -/
def loadPoliciesFromDb (rows : List PolicyRow) : List (Uuid × String) :=
  (sortByCreatedAt (rows.filter fun r => r.is_active)).map fun r =>
    (r.id, r.policy_cedar)

/-- The loop of CedarEngine::load_policies: build a fresh policy set,
failing the whole load on the first parse failure or duplicate id. -/
def buildPolicySet (parseOk : Uuid → String → Bool) :
    List (Uuid × String) → List (Uuid × String) →
    Except String (List (Uuid × String))
  | acc, [] => .ok acc
  | acc, (pid, text) :: rest =>
    if parseOk pid text then
      if acc.any fun q => q.1 = pid then .error "duplicate policy id"
      else buildPolicySet parseOk (acc ++ [(pid, text)]) rest
    else .error ("Failed to parse policy " ++ toString pid)

/-- CedarEngine::load_policies: on success the working set is replaced in one
write-lock section by the fully built fresh set and the count is returned; on
any failure the error propagates before the swap, leaving the working set
untouched. -/
def loadPolicies (parseOk : Uuid → String → Bool)
    (workingSet : List (Uuid × String)) (policyTexts : List (Uuid × String)) :
    List (Uuid × String) × Except String Nat :=
  match buildPolicySet parseOk [] policyTexts with
  | .ok fresh => (fresh, .ok fresh.length)
  | .error e => (workingSet, .error e)

/-!  Bulk authorization, from src/src/api/authz.rs lines 151-281.

Building the Cedar request, creating the entities and evaluating are external
steps; their combined outcome for one request is a parameter.  The loop never
aborts: each failure is recorded as a deny with error text at its index. -/

/-- An authorization check request body. -/
structure AuthzCheckRequest where
  principal : String
  action : String
  resource : String
deriving DecidableEq, Repr

/-- Combined outcome of building and evaluating one request. -/
inductive ReqOutcome where
  | buildErr (msg : String)
  | entitiesErr (msg : String)
  | evalErr (msg : String)
  | decision (allowed : Bool) (reasons errors : List String)
deriving DecidableEq, Repr

/-- One per-index result row of the bulk response. -/
structure BulkAuthzCheckResult where
  index : Nat
  allowed : Bool
  reasons : List String
  errors : List String
deriving DecidableEq, Repr

/-- The bulk response body. -/
structure BulkAuthzCheckResponse where
  results : List BulkAuthzCheckResult
  total : Nat
  allowed_count : Nat
  denied_count : Nat
deriving DecidableEq, Repr

/-- The per-request arm of the bulk loop: build or evaluation failures are
recorded as denied with the error text; a decision is recorded as is. -/
def bulkResultAt (index : Nat) : ReqOutcome → BulkAuthzCheckResult
  | .buildErr msg =>
    { index := index, allowed := false, reasons := [], errors := [msg] }
  | .entitiesErr msg =>
    { index := index, allowed := false, reasons := [], errors := [msg] }
  | .evalErr msg =>
    { index := index, allowed := false, reasons := [], errors := [msg] }
  | .decision allowed reasons errors =>
    { index := index, allowed := allowed, reasons := reasons, errors := errors }

/-- The bulk loop from a starting index: the per-index results together with
the allowed and denied tallies. -/
def bulkLoop (outcome : AuthzCheckRequest → ReqOutcome) (index : Nat) :
    List AuthzCheckRequest → List BulkAuthzCheckResult × Nat × Nat
  | [] => ([], 0, 0)
  | r :: rest =>
    let res := bulkResultAt index (outcome r)
    let (results, allowedCount, deniedCount) := bulkLoop outcome (index + 1) rest
    (res :: results,
     (if res.allowed then allowedCount + 1 else allowedCount),
     (if res.allowed then deniedCount else deniedCount + 1))

/-- bulk_check_authorization: reject an empty batch, reject a batch above
100, otherwise run every request and report results with tallies (total is
the sum of the two tallies, as in the source). -/
def bulkCheckAuthorization (outcome : AuthzCheckRequest → ReqOutcome)
    (requests : List AuthzCheckRequest) :
    Except AppError BulkAuthzCheckResponse :=
  if requests.isEmpty then .error (.badRequest "No requests provided")
  else if requests.length > 100 then
    .error (.badRequest "Too many requests. Maximum is 100")
  else
    let (results, allowedCount, deniedCount) := bulkLoop outcome 0 requests
    .ok { results := results
          total := allowedCount + deniedCount
          allowed_count := allowedCount
          denied_count := deniedCount }

/-!  Theorems.  Each claim of the specification is settled below against the
definitions above. -/

/-- Helper: enumFrom-based form of the flush_batch conversion. -/
lemma flushBatchPersist_enumFrom (freshId : Nat → Uuid) (batch : List AuditEvent) :
    ∀ i, ((batch.enumFrom i).map fun p =>
        ({ id := freshId p.1, event := p.2, signature := none,
           previous_event_hash := none } : PersistedAuditEvent)).map
        (fun p => p.previous_event_hash) =
      batch.map fun _ => (none : Option String) := by
  induction batch with
  | nil => intro i; rfl
  | cons e rest ih =>
    intro i
    simp only [List.enumFrom, List.map_cons, List.map_cons]
    exact congrArg (List.cons none) (ih (i + 1))

/-- Claim C2: the audit pipeline persists every event of every batch with
previous_event_hash equal to None, so no persisted event other than a chain
head can carry the hash of its predecessor: the linkage invariant fails for
every chain of two or more events, since a computed hash is some 64-character
string and never None.  This theorem evaluates the conversion inside
flush_batch (src/src/audit/logger.rs lines 134-142) on every batch. -/
theorem C2_flush_batch_never_links (freshId : Nat → Uuid)
    (batch : List AuditEvent) :
    (flushBatchPersist freshId batch).map (fun p => p.previous_event_hash) =
      batch.map fun _ => (none : Option String) := by
  unfold flushBatchPersist List.enum
  exact flushBatchPersist_enumFrom freshId batch 0

/-- Claim C10: the login handler looks the identity up by email alone.  The
first conjunct shows the lookup commutes with every reassignment of the
tenant_id column (there is no tenant condition in the query); the second
characterises successful authentication: the row whose status and password
hash are checked is exactly the row the email-only lookup returns, in
whichever tenant it lives. -/
theorem C10_login_lookup_by_email_only (verify : String → String → Bool)
    (store : List Identity) (email password : String) :
    (∀ f : Identity → Uuid,
      loginFindByEmail (store.map fun i => { i with tenant_id := f i }) email =
        (loginFindByEmail store email).map fun i => { i with tenant_id := f i }) ∧
    (∀ ident, loginAuthenticate verify store email password = .ok ident ↔
      (email ≠ "" ∧ password ≠ "" ∧ loginFindByEmail store email = some ident ∧
       ident.status = "active" ∧
       ∃ h, ident.password_hash = some h ∧ verify password h = true)) := by
  constructor
  · intro f
    induction store with
    | nil => rfl
    | cons i rest ih =>
      have hEq : ({ i with tenant_id := f i } : Identity).email = i.email := rfl
      by_cases h : i.email = some email
      · simp [loginFindByEmail, List.find?_cons, hEq, h]
      · simp only [loginFindByEmail, List.map_cons, List.find?_cons, hEq, h,
          decide_False] at *
        exact ih
  · intro ident
    constructor
    · intro h
      unfold loginAuthenticate at h
      by_cases he : email = ""
      · rw [if_pos he] at h; exact absurd h (by simp)
      rw [if_neg he] at h
      by_cases hp : password = ""
      · rw [if_pos hp] at h; exact absurd h (by simp)
      rw [if_neg hp] at h
      cases hfind : loginFindByEmail store email with
      | none => rw [hfind] at h; exact absurd h (by simp)
      | some row =>
        rw [hfind] at h
        by_cases hs : row.status = "active"
        · cases hh : row.password_hash with
          | none => simp [hs, hh] at h
          | some hv =>
            by_cases hverify : verify password hv = true
            · simp [hs, hh, hverify] at h
              subst h
              exact ⟨he, hp, rfl, hs, hv, hh, hverify⟩
            · simp [hs, hh, hverify] at h
        · simp [hs] at h
    · rintro ⟨he, hp, hfind, hs, ⟨hv, hh, hverify⟩⟩
      unfold loginAuthenticate
      rw [if_neg he, if_neg hp, hfind]
      simp [hs, hh, hverify]

/-- Witness for claim C10 at a concrete two-tenant store: the row of tenant
200 is authenticated even though another tenant exists, via the email-only
characterisation. -/
theorem C10_login_lookup_witness :
    loginAuthenticate (fun p h => p = "pw" ∧ h = "H")
      [{ id := 1, tenant_id := 200, identity_type := .user, name := "a",
         email := some "a@x", status := "active", parent_identity_id := none,
         task_id := none, expires_at := none, password_hash := some "H" }]
      "a@x" "pw" =
      .ok { id := 1, tenant_id := 200, identity_type := .user, name := "a",
            email := some "a@x", status := "active", parent_identity_id := none,
            task_id := none, expires_at := none, password_hash := some "H" } := by
  refine ((C10_login_lookup_by_email_only (fun p h => p = "pw" ∧ h = "H")
    _ "a@x" "pw").2 _).mpr ?_
  refine ⟨by decide, by decide, by decide, rfl, "H", rfl, by decide⟩

/-- A concrete biscuit token whose temporal check passes at validation time
while its non-temporal attenuation check fails. -/
def biscuitTokenCx : BiscuitToken :=
  { facts := [BiscuitFact.agent 1 2 3 "task", BiscuitFact.issuedAt 0]
    checks := [BiscuitCheck.timeBefore 1000, BiscuitCheck.opEquals "read"]
    validSig := true }

/-- Counterexample to claim C6 as stated: at time 0 the temporal check of
this token passes (0 is below 1000), the only failing check is the
non-temporal operation check, yet validate returns Expired where the claim
demands Invalid: the source maps every FailedLogic outcome to TokenExpired
regardless of which check failed. -/
theorem C6_translate_expired_cx :
    checkPasses (biscuitTokenCx.facts ++ [BiscuitFact.time 0])
        (BiscuitCheck.timeBefore 1000) = true ∧
    checkPasses (biscuitTokenCx.facts ++ [BiscuitFact.time 0])
        (BiscuitCheck.opEquals "read") = false ∧
    validateBiscuitToken "root" biscuitTokenCx 0 = .error .tokenExpired :=
  ⟨rfl, rfl, rfl⟩

/-- Claim C6 as amended: mint rejects a non-future expires_at with
ValidationError; validate rejects a bad signature with Invalid (format
error); and any failed check, temporal or not, surfaces as FailedLogic and is
translated to Expired. -/
theorem C6_mint_and_check_translation :
    (∀ (rootKeyId : String) (request : CreateAgentTokenRequest) (now : Int),
      request.expires_at ≤ now →
      generateBiscuitToken rootKeyId request now =
        .error (.validationError "Expiration time must be in the future")) ∧
    (∀ (rootKeyId : String) (token : BiscuitToken) (now : Int),
      token.validSig = false →
      validateBiscuitToken rootKeyId token now =
        .error (.tokenValidation "Invalid token format")) ∧
    (∀ (rootKeyId : String) (token : BiscuitToken) (now : Int),
      token.validSig = true →
      (∃ c ∈ token.checks,
        checkPasses (token.facts ++ [BiscuitFact.time now]) c = false) →
      validateBiscuitToken rootKeyId token now = .error .tokenExpired) := by
  refine ⟨?_, ?_, ?_⟩
  · intro rootKeyId request now hle
    unfold generateBiscuitToken
    rw [if_pos hle]
  · intro rootKeyId token now hsig
    unfold validateBiscuitToken
    rw [hsig]
    rfl
  · intro rootKeyId token now hsig hfail
    obtain ⟨c, hc, hcf⟩ := hfail
    unfold validateBiscuitToken
    have hne : (token.checks.filter fun c =>
        !decide (checkPasses (token.facts ++ [BiscuitFact.time now]) c = true)) ≠ [] := by
      intro hnil
      have hmem : c ∈ token.checks.filter fun c =>
          !decide (checkPasses (token.facts ++ [BiscuitFact.time now]) c = true) := by
        rw [List.mem_filter]
        refine ⟨hc, ?_⟩
        rw [hcf]
        rfl
      rw [hnil] at hmem
      exact absurd hmem (List.not_mem_nil c)
    rw [if_neg (by simp [hsig])]
    simp only [decide_not]
    rw [if_pos hne]

/-- Witness for claim C6 at a concrete input: a token whose single failing
check is non-temporal is rejected as Expired. -/
theorem C6_mint_and_check_translation_witness :
    validateBiscuitToken "r"
      { facts := [], checks := [BiscuitCheck.opEquals "w"], validSig := true } 5 =
      .error .tokenExpired :=
  C6_mint_and_check_translation.2.2 "r"
    { facts := [], checks := [BiscuitCheck.opEquals "w"], validSig := true } 5 rfl
    ⟨BiscuitCheck.opEquals "w", List.mem_singleton.mpr rfl, rfl⟩

/-- Helper: the behaviour of validate_access_token on a token whose
signature, issuer and audience are in order, as one nested conditional on the
expiry alone. -/
lemma validateAccessToken_eq (mac : String → JwtClaims → Nat) (secret : String)
    (leeway : Int) (now : Int) (token : Hs256Token)
    (hsig : token.sig = mac secret token.claims)
    (hiss : token.claims.iss = "agent-iam")
    (haud : "agent-iam-api" ∈ token.claims.aud) :
    validateAccessToken mac secret leeway now token =
      (if token.claims.exp < now - leeway then
        .error (.tokenValidation "Failed to decode JWT: ExpiredSignature")
      else if token.claims.exp ≤ now then .error .tokenExpired
      else .ok token.claims) := by
  unfold validateAccessToken jwtDecode
  rw [if_neg (by simp [hsig]), if_neg (by simp [hiss]), if_neg (by simp [haud])]
  by_cases hexp : token.claims.exp < now - leeway
  · rw [if_pos hexp, if_pos hexp]
    rfl
  · rw [if_neg hexp, if_neg hexp]
    by_cases h2 : token.claims.exp ≤ now
    · rw [if_pos h2]
      simp [JwtClaims.isExpired, h2]
    · rw [if_neg h2]
      simp [JwtClaims.isExpired, h2]


/-- Helper: a freshly minted access token validates to its claims whenever
the TTL is positive and the leeway non-negative. -/
lemma validate_fresh_token (mac : String → JwtClaims → Nat) (secret : String)
    (dur leeway : Int) (i t jti : Uuid) (k : String) (now atTime : Int)
    (hlow : atTime - leeway ≤ now + dur) (hhigh : atTime < now + dur) :
    validateAccessToken mac secret leeway atTime
        (generateAccessToken mac secret dur i t k now jti) =
      .ok (JwtClaims.new i t k dur now jti) := by
  have h1 : ¬ ((generateAccessToken mac secret dur i t k now jti).claims.exp
      < atTime - leeway) := by
    show ¬ (now + dur < atTime - leeway)
    omega
  have h2 : ¬ ((generateAccessToken mac secret dur i t k now jti).claims.exp
      ≤ atTime) := by
    show ¬ (now + dur ≤ atTime)
    omega
  rw [validateAccessToken_eq mac secret leeway atTime _ rfl rfl
    (by simp [generateAccessToken, JwtClaims.new]), if_neg h1, if_neg h2]
  rfl

/-- Helper: logout for a token that validates, written out as the resulting
state. -/
lemma logout_ok (mac : String → JwtClaims → Nat) (secret : String)
    (leeway : Int) (st : AuthState) (now : Int) (token : Hs256Token)
    (claims : JwtClaims)
    (hval : validateAccessToken mac secret leeway now token = .ok claims) :
    logout mac secret leeway st now token =
      .ok { sessions := st.sessions.map fun s =>
              if s.token_id = claims.jti ∧ s.revoked_at = none then
                { s with revoked_at := some now }
              else s
            revoked := if max (claims.exp - now) 0 > 0 then
                claims.jti :: st.revoked
              else st.revoked } := by
  unfold logout
  rw [hval]
  rfl

/-- Claim C9: the round-trip half of the claim holds (validating a freshly
minted access token yields claims with the minted subject, tenant and kind),
but the expiry half fails in the code: validate_access_token maps every
decode failure, including ExpiredSignature, to the generic TokenValidation
error, so a token whose exp lies below now minus the decoder leeway is
rejected as Invalid rather than Expired; only tokens inside the leeway
window reach the is_expired check and surface TokenExpired.  The second
conjunct evaluates the code at such a failing input. -/
theorem C9_jwt_roundtrip_and_expired_translation :
    (∀ (mac : String → JwtClaims → Nat) (secret : String) (dur leeway : Int)
        (i t jti : Uuid) (k : String) (now : Int),
      0 < dur → 0 ≤ leeway →
      validateAccessToken mac secret leeway now
          (generateAccessToken mac secret dur i t k now jti) =
        .ok (JwtClaims.new i t k dur now jti) ∧
      (JwtClaims.new i t k dur now jti).sub = i ∧
      (JwtClaims.new i t k dur now jti).tenant_id = t ∧
      (JwtClaims.new i t k dur now jti).identity_type = k) ∧
    (∀ (mac : String → JwtClaims → Nat) (secret : String) (leeway : Int)
        (now : Int) (token : Hs256Token),
      token.sig = mac secret token.claims →
      token.claims.iss = "agent-iam" →
      "agent-iam-api" ∈ token.claims.aud →
      token.claims.exp < now - leeway →
      validateAccessToken mac secret leeway now token =
        .error (.tokenValidation "Failed to decode JWT: ExpiredSignature")) ∧
    (∀ (mac : String → JwtClaims → Nat) (secret : String) (leeway : Int)
        (now : Int) (token : Hs256Token),
      token.sig = mac secret token.claims →
      token.claims.iss = "agent-iam" →
      "agent-iam-api" ∈ token.claims.aud →
      now - leeway ≤ token.claims.exp → token.claims.exp ≤ now →
      validateAccessToken mac secret leeway now token =
        .error .tokenExpired) := by
  refine ⟨?_, ?_, ?_⟩
  · intro mac secret dur leeway i t jti k now hdur hlee
    exact ⟨validate_fresh_token mac secret dur leeway i t jti k now now
      (by omega) (by omega), rfl, rfl, rfl⟩
  · intro mac secret leeway now token hsig hiss haud hexp
    rw [validateAccessToken_eq mac secret leeway now token hsig hiss haud,
      if_pos hexp]
  · intro mac secret leeway now token hsig hiss haud hge hle
    have hn : ¬ (token.claims.exp < now - leeway) := by omega
    rw [validateAccessToken_eq mac secret leeway now token hsig hiss haud,
      if_neg hn, if_pos hle]

/-- Witness for claim C9: a signed, well-formed token with exp 900 validated
at time 1000 with the default leeway of 60 is rejected with the generic
validation error, not with TokenExpired, although its exp is in the past. -/
theorem C9_jwt_expired_translation_witness :
    validateAccessToken (fun _ _ => 0) "secret" 60 1000
      { claims := { sub := 1, tenant_id := 2, identity_type := "user",
                    iat := 0, exp := 900, jti := 3, iss := "agent-iam",
                    aud := ["agent-iam-api"] }, sig := 0 } =
      .error (.tokenValidation "Failed to decode JWT: ExpiredSignature") :=
  C9_jwt_roundtrip_and_expired_translation.2.1 (fun _ _ => 0) "secret" 60 1000
    { claims := { sub := 1, tenant_id := 2, identity_type := "user",
                  iat := 0, exp := 900, jti := 3, iss := "agent-iam",
                  aud := ["agent-iam-api"] }, sig := 0 }
    rfl rfl (by decide) (by decide)

/-- Claim C1: token validation never consults the revocation set.  After a
successful logout of a freshly minted token, the jti is present in the Redis
revocation set, yet a later validation of the very same token (before its
expiry) still returns the claims, not TokenRevoked: validate_access_token
checks only signature, issuer, audience and expiry, and the is_token_revoked
lookup of src/src/redis/revocation.rs has no caller on any validation path. -/
theorem C1_validation_ignores_revocation (mac : String → JwtClaims → Nat)
    (secret : String) (leeway : Int) (st : AuthState) (dur : Int)
    (now later : Int) (i t jti : Uuid) (k : String)
    (hdur : 0 < dur) (hlee : 0 ≤ leeway) (hnl : now ≤ later)
    (hlt : later < now + dur) :
    ∃ st2,
      logout mac secret leeway st now
          (generateAccessToken mac secret dur i t k now jti) = .ok st2 ∧
      jti ∈ st2.revoked ∧
      validateAccessToken mac secret leeway later
          (generateAccessToken mac secret dur i t k now jti) =
        .ok (JwtClaims.new i t k dur now jti) := by
  have hval : validateAccessToken mac secret leeway now
      (generateAccessToken mac secret dur i t k now jti) =
      .ok (JwtClaims.new i t k dur now jti) :=
    validate_fresh_token mac secret dur leeway i t jti k now now
      (by omega) (by omega)
  have hval2 : validateAccessToken mac secret leeway later
      (generateAccessToken mac secret dur i t k now jti) =
      .ok (JwtClaims.new i t k dur now jti) :=
    validate_fresh_token mac secret dur leeway i t jti k now later
      (by omega) (by omega)
  refine ⟨_, logout_ok mac secret leeway st now _ _ hval, ?_, hval2⟩
  have httl : max ((JwtClaims.new i t k dur now jti).exp - now) 0 > 0 := by
    have hexp : (JwtClaims.new i t k dur now jti).exp = now + dur := rfl
    rw [hexp]
    exact lt_max_iff.mpr (Or.inl (by omega))
  show jti ∈ (if max ((JwtClaims.new i t k dur now jti).exp - now) 0 > 0 then
      (JwtClaims.new i t k dur now jti).jti :: st.revoked
    else st.revoked)
  rw [if_pos httl]
  exact List.mem_cons_self _ _

/-- Witness for claim C1 at concrete inputs: logging out a token minted at
time 0 with TTL 900 puts jti 5 in the revocation set, and validating the same
token at time 10 still succeeds. -/
theorem C1_validation_ignores_revocation_witness :
    ∃ st2,
      logout (fun _ _ => 0) "secret" 60 { sessions := [], revoked := [] } 0
          (generateAccessToken (fun _ _ => 0) "secret" 900 1 2 "user" 0 5) =
        .ok st2 ∧
      5 ∈ st2.revoked ∧
      validateAccessToken (fun _ _ => 0) "secret" 60 10
          (generateAccessToken (fun _ _ => 0) "secret" 900 1 2 "user" 0 5) =
        .ok (JwtClaims.new 1 2 "user" 900 0 5) :=
  C1_validation_ignores_revocation (fun _ _ => 0) "secret" 60
    { sessions := [], revoked := [] } 900 0 10 1 2 5 "user"
    (by decide) (by decide) (by decide) (by decide)

/-- The set remaining after the ZREMRANGEBYSCORE prune of the script (kept
reducible so proofs can match it against the script body). -/
abbrev prunedScores (set : List ℚ) (now windowSeconds : Nat) : List ℚ :=
  set.filter fun s => ¬ s ≤ ((now - windowSeconds : Nat) : ℚ)

/-- Helper: a non-empty sorted set has an oldest member. -/
lemma minScore_of_ne_nil (l : List ℚ) (h : l ≠ []) : ∃ m, minScore l = some m := by
  cases l with
  | nil => exact absurd rfl h
  | cons x xs => exact ⟨_, rfl⟩

/-- Claim C4: the admission call prunes members with score at or below
now - W, and then either admits (when the pruned cardinality is below the
limit: one fresh member is added and the result reports allowed, current+1,
L-current-1 remaining and reset now+W) or denies (nothing is added, the
current count and zero remaining are reported, and reset is the ceiling of
the oldest member plus W). -/
theorem C4_check_and_increment_contract (set : List ℚ)
    (limit windowSeconds now : Nat) (uniqueScore : ℚ)
    (hL : 0 < limit) (hfresh : uniqueScore ∉ set) :
    ((prunedScores set now windowSeconds).length < limit →
      checkAndIncrement set limit windowSeconds now uniqueScore =
        (uniqueScore :: prunedScores set now windowSeconds,
         { allowed := true
           limit := limit
           remaining := (limit : Int) -
             (((prunedScores set now windowSeconds).length : Int) + 1)
           reset := (now : Int) + (windowSeconds : Int)
           current := ((prunedScores set now windowSeconds).length : Int) + 1 })) ∧
    (limit ≤ (prunedScores set now windowSeconds).length →
      ∃ s0, minScore (prunedScores set now windowSeconds) = some s0 ∧
      checkAndIncrement set limit windowSeconds now uniqueScore =
        (prunedScores set now windowSeconds,
         { allowed := false
           limit := limit
           remaining := 0
           reset := Int.ceil s0 + (windowSeconds : Int)
           current := ((prunedScores set now windowSeconds).length : Int) })) := by
  have hnotmem : uniqueScore ∉ prunedScores set now windowSeconds := by
    intro hmem
    exact hfresh (List.mem_filter.mp hmem).1
  constructor
  · intro hlt
    simp only [checkAndIncrement, slidingWindowScript, zaddScore]
    rw [if_pos hlt, if_neg hnotmem]
    rfl
  · intro hge
    have hne : prunedScores set now windowSeconds ≠ [] := by
      intro hnil
      rw [hnil] at hge
      simp at hge
      omega
    obtain ⟨s0, hs0⟩ := minScore_of_ne_nil _ hne
    refine ⟨s0, hs0, ?_⟩
    have hnlt : ¬ ((prunedScores set now windowSeconds).length < limit) := by
      omega
    simp only [checkAndIncrement, slidingWindowScript]
    rw [if_neg hnlt, hs0]
    rfl

/-- Witness for claim C4 at a concrete input: first admission on an empty
set with limit 1 and window 60 at time 100. -/
theorem C4_check_and_increment_witness :
    checkAndIncrement [] 1 60 100 100 =
      ([100],
       { allowed := true, limit := 1, remaining := 0, reset := 160,
         current := 1 }) := by
  have h := (C4_check_and_increment_contract [] 1 60 100 100
    (by decide) (by decide)).1 (by decide)
  rw [h]
  rfl

/-- Claim C5: under a found, same-tenant, active parent, provision_agent
rejects an out-of-range TTL (default 3600) with ValidationError, rejects a
parent depth of 10 or more (a resulting depth above 10) with
ValidationError, and on success the produced agent expires at the minimum of
now + ttl and the parent expiry whenever the parent has one, so the agent
never outlives its parent. -/
theorem C5_provision_agent_contract (store : List Identity) (tenant_id : Uuid)
    (request : AgentProvisionRequest) (now : Int) (newId : Uuid)
    (parent : Identity)
    (hfind : findIdentity store request.parent_identity_id = some parent)
    (htenant : parent.tenant_id = tenant_id)
    (hactive : parent.status = "active") :
    ((calculateDelegationDepth store parent.id < 10 →
      (request.ttl_seconds.getD 3600 < 60 ∨ request.ttl_seconds.getD 3600 > 86400) →
      provisionAgent store tenant_id request now newId =
        .error (.validationError "TTL must be between 60 and 86400 seconds")) ∧
     (10 ≤ calculateDelegationDepth store parent.id →
      provisionAgent store tenant_id request now newId =
        .error (.validationError "Maximum delegation depth of 10 exceeded")) ∧
     (∀ result, provisionAgent store tenant_id request now newId = .ok result →
       (60 ≤ request.ttl_seconds.getD 3600 ∧
        request.ttl_seconds.getD 3600 ≤ 86400) ∧
       result.delegation_depth =
         (calculateDelegationDepth store parent.id : Int) + 1 ∧
       (∀ parentExpires, parent.expires_at = some parentExpires →
         result.agent_identity.expires_at =
           some (min (now + request.ttl_seconds.getD 3600) parentExpires) ∧
         ∀ agentExpires,
           result.agent_identity.expires_at = some agentExpires →
           agentExpires ≤ parentExpires) ∧
       (parent.expires_at = none →
         result.agent_identity.expires_at =
           some (now + request.ttl_seconds.getD 3600)))) := by
  have hbase : provisionAgent store tenant_id request now newId =
      (if calculateDelegationDepth store parent.id ≥ 10 then
        .error (.validationError "Maximum delegation depth of 10 exceeded")
      else if request.ttl_seconds.getD 3600 < 60 ∨
          request.ttl_seconds.getD 3600 > 86400 then
        .error (.validationError "TTL must be between 60 and 86400 seconds")
      else if strTrim request.name = "" then
        .error (.validationError "Identity name cannot be empty")
      else
        .ok { agent_identity :=
                { id := newId
                  tenant_id := tenant_id
                  identity_type := .agent
                  name := request.name
                  email := none
                  status := "active"
                  parent_identity_id := some request.parent_identity_id
                  task_id := some request.task_id
                  expires_at := some
                    (match parent.expires_at with
                     | some parentExpires =>
                       if now + request.ttl_seconds.getD 3600 > parentExpires
                       then parentExpires
                       else now + request.ttl_seconds.getD 3600
                     | none => now + request.ttl_seconds.getD 3600)
                  password_hash := none }
              delegation_depth :=
                (calculateDelegationDepth store parent.id : Int) + 1 }) := by
    simp only [provisionAgent, hfind]
    rw [if_neg (show ¬ (parent.tenant_id ≠ tenant_id) from by simp [htenant]),
        if_neg (show ¬ (parent.status ≠ "active") from by simp [hactive])]
  refine ⟨?_, ?_, ?_⟩
  · intro hd httl
    rw [hbase, if_neg (by omega), if_pos httl]
  · intro hd
    rw [hbase, if_pos (by omega)]
  · intro result hok
    rw [hbase] at hok
    by_cases hd : calculateDelegationDepth store parent.id ≥ 10
    · rw [if_pos hd] at hok
      exact absurd hok (by simp)
    rw [if_neg hd] at hok
    by_cases httl : request.ttl_seconds.getD 3600 < 60 ∨
        request.ttl_seconds.getD 3600 > 86400
    · rw [if_pos httl] at hok
      exact absurd hok (by simp)
    rw [if_neg httl] at hok
    by_cases hname : strTrim request.name = ""
    · rw [if_pos hname] at hok
      exact absurd hok (by simp)
    rw [if_neg hname] at hok
    push_neg at httl
    injection hok with hres
    subst hres
    refine ⟨⟨httl.1, httl.2⟩, rfl, ?_, ?_⟩
    · intro parentExpires hpe
      have hminEq : (some (match parent.expires_at with
          | some parentExpires =>
            if now + request.ttl_seconds.getD 3600 > parentExpires
            then parentExpires
            else now + request.ttl_seconds.getD 3600
          | none => now + request.ttl_seconds.getD 3600) : Option Int) =
          some (min (now + request.ttl_seconds.getD 3600) parentExpires) := by
        rw [hpe]
        show some (if now + request.ttl_seconds.getD 3600 > parentExpires
            then parentExpires else now + request.ttl_seconds.getD 3600) =
          some (min (now + request.ttl_seconds.getD 3600) parentExpires)
        by_cases hgt : now + request.ttl_seconds.getD 3600 > parentExpires
        · rw [if_pos hgt, min_eq_right (by omega)]
        · rw [if_neg hgt, min_eq_left (by omega)]
      refine ⟨hminEq, ?_⟩
      intro agentExpires hae
      have hae3 : some (min (now + request.ttl_seconds.getD 3600) parentExpires) =
          some agentExpires := by
        rw [← hminEq]
        exact hae
      injection hae3 with h4
      rw [← h4]
      exact min_le_right _ _
    · intro hpe
      show some (match parent.expires_at with
          | some parentExpires =>
            if now + request.ttl_seconds.getD 3600 > parentExpires
            then parentExpires
            else now + request.ttl_seconds.getD 3600
          | none => now + request.ttl_seconds.getD 3600) =
        some (now + request.ttl_seconds.getD 3600)
      rw [hpe]

/-- Concrete parent row for the C5 witness. -/
def parentW : Identity :=
  { id := 1, tenant_id := 7, identity_type := .user, name := "p",
    email := some "p@x", status := "active", parent_identity_id := none,
    task_id := none, expires_at := some 500, password_hash := none }

/-- Concrete store for the C5 witness. -/
def storeW : List Identity := [parentW]

/-- Concrete provisioning request for the C5 witness. -/
def reqW : AgentProvisionRequest :=
  { parent_identity_id := 1, task_id := "t", name := "a",
    ttl_seconds := some 3600 }

/-- Concrete provisioning result for the C5 witness: the agent expiry is
clamped from 3600 down to the parent expiry 500. -/
def agentResW : AgentProvisionResult :=
  { agent_identity :=
      { id := 2, tenant_id := 7, identity_type := .agent, name := "a",
        email := none, status := "active", parent_identity_id := some 1,
        task_id := some "t", expires_at := some 500, password_hash := none }
    delegation_depth := 1 }

/-- Witness for claim C5 at the concrete input above. -/
theorem C5_provision_agent_witness :
    provisionAgent storeW 7 reqW 0 2 = .ok agentResW ∧
    agentResW.agent_identity.expires_at = some (min (0 + 3600) 500) ∧
    agentResW.delegation_depth = (calculateDelegationDepth storeW 1 : Int) + 1 := by
  have hok : provisionAgent storeW 7 reqW 0 2 = .ok agentResW := by rfl

  have h := (C5_provision_agent_contract storeW 7 reqW 0 2 parentW
    (by decide) (by decide) (by decide)).2.2 agentResW hok
  exact ⟨hok, (h.2.2.1 500 rfl).1, h.2.1⟩

/-- Helper: inserting into the sorted row list is a permutation of cons. -/
lemma insertByCreatedAt_perm (p : PolicyRow) (l : List PolicyRow) :
    List.Perm (insertByCreatedAt p l) (p :: l) := by
  induction l with
  | nil => exact List.Perm.refl _
  | cons q qs ih =>
    unfold insertByCreatedAt
    by_cases h : q.created_at ≤ p.created_at
    · rw [if_pos h]
      exact (ih.cons q).trans (List.Perm.swap p q qs)
    · rw [if_neg h]

/-- Helper: inserting preserves sortedness by created_at. -/
lemma insertByCreatedAt_sorted (p : PolicyRow) (l : List PolicyRow)
    (hl : List.Sorted (fun a b => a.created_at ≤ b.created_at) l) :
    List.Sorted (fun a b => a.created_at ≤ b.created_at)
      (insertByCreatedAt p l) := by
  induction l with
  | nil => simp [insertByCreatedAt]
  | cons q qs ih =>
    rw [List.sorted_cons] at hl
    unfold insertByCreatedAt
    by_cases h : q.created_at ≤ p.created_at
    · rw [if_pos h]
      rw [List.sorted_cons]
      refine ⟨?_, ih hl.2⟩
      intro b hb
      have hb2 : b ∈ p :: qs := (insertByCreatedAt_perm p qs).mem_iff.mp hb
      rcases List.mem_cons.mp hb2 with hbp | hbq
      · rw [hbp]; exact h
      · exact hl.1 b hbq
    · rw [if_neg h]
      rw [List.sorted_cons]
      refine ⟨?_, List.sorted_cons.mpr hl⟩
      intro b hb
      rcases List.mem_cons.mp hb with hbq | hbq
      · rw [hbq]; omega
      · exact le_trans (by omega) (hl.1 b hbq)

/-- Helper: sortByCreatedAt sorts. -/
lemma sortByCreatedAt_sorted (l : List PolicyRow) :
    List.Sorted (fun a b => a.created_at ≤ b.created_at) (sortByCreatedAt l) := by
  induction l with
  | nil => simp [sortByCreatedAt]
  | cons p ps ih => exact insertByCreatedAt_sorted p _ ih

/-- Helper: sortByCreatedAt permutes. -/
lemma sortByCreatedAt_perm (l : List PolicyRow) :
    List.Perm (sortByCreatedAt l) l := by
  induction l with
  | nil => exact List.Perm.refl _
  | cons p ps ih =>
    exact (insertByCreatedAt_perm p (sortByCreatedAt ps)).trans (ih.cons p)

/-- Helper: a successful fresh-set build appends the texts to the
accumulator verbatim. -/
lemma buildPolicySet_ok (parseOk : Uuid → String → Bool) :
    ∀ (texts acc fresh : List (Uuid × String)),
      buildPolicySet parseOk acc texts = .ok fresh → fresh = acc ++ texts := by
  intro texts
  induction texts with
  | nil =>
    intro acc fresh h
    unfold buildPolicySet at h
    injection h with h2
    rw [← h2, List.append_nil]
  | cons p rest ih =>
    intro acc fresh h
    unfold buildPolicySet at h
    by_cases hp : parseOk p.1 p.2 = true
    · rw [if_pos hp] at h
      by_cases hdup : acc.any fun q => q.1 = p.1
      · rw [if_pos hdup] at h
        exact absurd h (by simp)
      · rw [if_neg hdup] at h
        have := ih (acc ++ [p]) fresh h
        rw [this, List.append_assoc]
        rfl
    · rw [if_neg hp] at h
      exact absurd h (by simp)
  
/-- Helper: a parse failure anywhere fails the whole build. -/
lemma buildPolicySet_fail (parseOk : Uuid → String → Bool) :
    ∀ (texts acc : List (Uuid × String)) (p : Uuid × String),
      p ∈ texts → parseOk p.1 p.2 = false →
      ∃ e, buildPolicySet parseOk acc texts = .error e := by
  intro texts
  induction texts with
  | nil =>
    intro acc p hp
    exact absurd hp (List.not_mem_nil p)
  | cons q rest ih =>
    intro acc p hp hfail
    unfold buildPolicySet
    by_cases hq : parseOk q.1 q.2 = true
    · rw [if_pos hq]
      by_cases hdup : acc.any fun r => r.1 = q.1
      · rw [if_pos hdup]
        exact ⟨_, rfl⟩
      · rw [if_neg hdup]
        rcases List.mem_cons.mp hp with hpq | hprest
        · rw [hpq] at hfail
          rw [hfail] at hq
          exact absurd hq (by simp)
        · exact ih (acc ++ [q]) p hprest hfail
    · rw [if_neg hq]
      exact ⟨_, rfl⟩

/-- Helper: with every text parsing and globally distinct ids, the build
succeeds with the accumulator followed by the texts. -/
lemma buildPolicySet_success (parseOk : Uuid → String → Bool) :
    ∀ (texts acc : List (Uuid × String)),
      (∀ p ∈ texts, parseOk p.1 p.2 = true) →
      ((acc ++ texts).map Prod.fst).Nodup →
      buildPolicySet parseOk acc texts = .ok (acc ++ texts) := by
  intro texts
  induction texts with
  | nil =>
    intro acc hall hnd
    unfold buildPolicySet
    rw [List.append_nil]
  | cons p rest ih =>
    intro acc hall hnd
    unfold buildPolicySet
    rw [if_pos (hall p (List.mem_cons_self p rest))]
    have hdup : ¬ (acc.any fun q => q.1 = p.1) = true := by
      intro hany
      obtain ⟨q, hq, hq2⟩ := List.any_eq_true.mp hany
      have hq3 : q.1 = p.1 := by simpa using hq2
      rw [List.map_append, List.nodup_append] at hnd
      exact hnd.2.2 (List.mem_map.mpr ⟨q, hq, rfl⟩)
        (List.mem_map.mpr ⟨p, List.mem_cons_self p rest, hq3.symm⟩)
    rw [if_neg hdup]
    have hnd2 : (((acc ++ [p]) ++ rest).map Prod.fst).Nodup := by
      rw [List.append_assoc]
      exact hnd
    have := ih (acc ++ [p]) (fun q hq => hall q (List.mem_cons_of_mem p hq)) hnd2
    rw [this, List.append_assoc]
    rfl

/-- Claim C7: reload loads the active policies ordered by created_at (first
two conjuncts: the ordering is sorted and is a permutation of the active
rows); a parse failure anywhere fails the whole reload and leaves the
previously active working set unchanged; when every policy parses (and ids
are distinct, as PolicySet::add requires) the working set becomes the fully
built fresh set with its count; and in every case the resulting working set
is either the old set or the complete new set, never a partial one. -/
theorem C7_policy_reload_atomic (parseOk : Uuid → String → Bool)
    (workingSet policyTexts : List (Uuid × String)) (rows : List PolicyRow) :
    (List.Sorted (fun a b => a.created_at ≤ b.created_at)
      (sortByCreatedAt (rows.filter fun r => r.is_active)) ∧
     List.Perm (sortByCreatedAt (rows.filter fun r => r.is_active))
      (rows.filter fun r => r.is_active)) ∧
    ((∃ p ∈ policyTexts, parseOk p.1 p.2 = false) →
      ∃ e, loadPolicies parseOk workingSet policyTexts =
        (workingSet, .error e)) ∧
    ((∀ p ∈ policyTexts, parseOk p.1 p.2 = true) →
      (policyTexts.map Prod.fst).Nodup →
      loadPolicies parseOk workingSet policyTexts =
        (policyTexts, .ok policyTexts.length)) ∧
    ((loadPolicies parseOk workingSet policyTexts).1 = workingSet ∨
     (loadPolicies parseOk workingSet policyTexts).1 = policyTexts) := by
  refine ⟨⟨sortByCreatedAt_sorted _, sortByCreatedAt_perm _⟩, ?_, ?_, ?_⟩
  · rintro ⟨p, hp, hfail⟩
    obtain ⟨e, he⟩ := buildPolicySet_fail parseOk policyTexts [] p hp hfail
    refine ⟨e, ?_⟩
    unfold loadPolicies
    rw [he]
  · intro hall hnd
    have h := buildPolicySet_success parseOk policyTexts [] hall (by simpa using hnd)
    unfold loadPolicies
    rw [h]
    simp
  · unfold loadPolicies
    cases hb : buildPolicySet parseOk [] policyTexts with
    | error e => exact Or.inl rfl
    | ok fresh =>
      right
      have := buildPolicySet_ok parseOk policyTexts [] fresh hb
      simpa using this

/-- Witness for claim C7 at a concrete input: two policies that both parse
replace the working set in full; a third policy that fails to parse leaves
the old working set untouched. -/
theorem C7_policy_reload_witness :
    loadPolicies (fun _ t => t ≠ "bad") [(9, "old")] [(1, "x"), (2, "y")] =
      ([(1, "x"), (2, "y")], .ok 2) ∧
    ∃ e, loadPolicies (fun _ t => t ≠ "bad") [(9, "old")]
      [(1, "x"), (2, "bad")] = ([(9, "old")], .error e) := by
  constructor
  · exact (C7_policy_reload_atomic (fun _ t => t ≠ "bad") [(9, "old")]
      [(1, "x"), (2, "y")] []).2.2.1 (by decide) (by decide)
  · exact (C7_policy_reload_atomic (fun _ t => t ≠ "bad") [(9, "old")]
      [(1, "x"), (2, "bad")] []).2.1 ⟨(2, "bad"), by decide, by decide⟩

/-- Helper: the bulk loop yields exactly the per-index mapped results with
the allowed/denied tallies counted over them. -/
lemma bulkLoop_eq (outcome : AuthzCheckRequest → ReqOutcome) :
    ∀ (reqs : List AuthzCheckRequest) (index : Nat),
      bulkLoop outcome index reqs =
        ((reqs.enumFrom index).map fun p => bulkResultAt p.1 (outcome p.2),
         ((reqs.enumFrom index).map fun p =>
            bulkResultAt p.1 (outcome p.2)).countP (fun r => r.allowed),
         ((reqs.enumFrom index).map fun p =>
            bulkResultAt p.1 (outcome p.2)).countP (fun r => !r.allowed)) := by
  intro reqs
  induction reqs with
  | nil => intro index; rfl
  | cons r rest ih =>
    intro index
    unfold bulkLoop
    rw [ih (index + 1)]
    simp only [List.enumFrom, List.map_cons, List.countP_cons]
    by_cases ha : (bulkResultAt index (outcome r)).allowed = true
    · simp [ha]
    · simp [ha]

/-- Helper: every bulk result is counted once, as allowed or as denied. -/
lemma countP_allowed_split (l : List BulkAuthzCheckResult) :
    l.countP (fun r => r.allowed) + l.countP (fun r => !r.allowed) =
      l.length := by
  induction l with
  | nil => rfl
  | cons x xs ih =>
    simp only [List.countP_cons, List.length_cons]
    by_cases hx : x.allowed = true
    · rw [if_pos (by simpa using hx), if_neg (by simp [hx])]
      omega
    · rw [if_neg (by simpa using hx), if_pos (by simp [hx])]
      omega

/-- Helper: the endpoint on an admissible batch, via the loop. -/
lemma bulkCheckAuthorization_ok (outcome : AuthzCheckRequest → ReqOutcome)
    (requests : List AuthzCheckRequest) (hne : requests.isEmpty = false)
    (hlen : ¬ requests.length > 100) :
    bulkCheckAuthorization outcome requests =
      .ok { results := (bulkLoop outcome 0 requests).1
            total := (bulkLoop outcome 0 requests).2.1 +
              (bulkLoop outcome 0 requests).2.2
            allowed_count := (bulkLoop outcome 0 requests).2.1
            denied_count := (bulkLoop outcome 0 requests).2.2 } := by
  unfold bulkCheckAuthorization
  rw [if_neg (by simp [hne]), if_neg hlen]

/-- Counterexample to claim C8 as stated: the empty batch has length
0 ≤ 100, yet the endpoint rejects it with BadRequest instead of returning
zero per-index results. -/
theorem C8_empty_batch_cx :
    bulkCheckAuthorization (fun _ => .decision true [] []) [] =
      .error (.badRequest "No requests provided") := rfl

/-- Claim C8 as amended: for non-empty batches of at most 100 requests the
endpoint returns exactly one result per index, where the result at index i
is a pure function of request i alone (a build, entity or evaluation failure
is recorded there as deny with the error text, and every other request is
still evaluated); the tallies count the allowed and denied results and total
is their sum, which equals the batch length.  Batches over 100 are rejected,
and so is the empty batch. -/
theorem C8_bulk_cap_and_no_short_circuit
    (outcome : AuthzCheckRequest → ReqOutcome)
    (requests : List AuthzCheckRequest) :
    (requests ≠ [] → requests.length ≤ 100 →
      bulkCheckAuthorization outcome requests =
        .ok { results := requests.enum.map fun p =>
                bulkResultAt p.1 (outcome p.2)
              total := (requests.enum.map fun p =>
                  bulkResultAt p.1 (outcome p.2)).countP (fun r => r.allowed) +
                (requests.enum.map fun p =>
                  bulkResultAt p.1 (outcome p.2)).countP (fun r => !r.allowed)
              allowed_count := (requests.enum.map fun p =>
                bulkResultAt p.1 (outcome p.2)).countP (fun r => r.allowed)
              denied_count := (requests.enum.map fun p =>
                bulkResultAt p.1 (outcome p.2)).countP (fun r => !r.allowed) } ∧
      (requests.enum.map fun p =>
          bulkResultAt p.1 (outcome p.2)).countP (fun r => r.allowed) +
        (requests.enum.map fun p =>
          bulkResultAt p.1 (outcome p.2)).countP (fun r => !r.allowed) =
        requests.length) ∧
    (100 < requests.length →
      bulkCheckAuthorization outcome requests =
        .error (.badRequest "Too many requests. Maximum is 100")) := by
  constructor
  · intro hne hlen
    constructor
    · rw [bulkCheckAuthorization_ok outcome requests (by simpa using hne)
        (by omega), bulkLoop_eq outcome requests 0]
      rfl
    · rw [countP_allowed_split, List.length_map, List.enum_length]
  · intro hlen
    unfold bulkCheckAuthorization
    rw [if_neg (by
        intro h
        rw [List.isEmpty_iff] at h
        rw [h] at hlen
        simp at hlen),
      if_pos (by omega)]

/-- Witness for claim C8 at a concrete input: three requests of which the
second fails to build are all answered, the failure recorded as a deny with
its error text at index 1. -/
theorem C8_bulk_witness :
    bulkCheckAuthorization
      (fun r => if r.action = "bad" then .buildErr "boom"
                else .decision true ["p0"] [])
      [{ principal := "U", action := "read", resource := "F" },
       { principal := "U", action := "bad", resource := "F" },
       { principal := "U", action := "read", resource := "G" }] =
      .ok { results :=
              [{ index := 0, allowed := true, reasons := ["p0"], errors := [] },
               { index := 1, allowed := false, reasons := [],
                 errors := ["boom"] },
               { index := 2, allowed := true, reasons := ["p0"], errors := [] }]
            total := 3
            allowed_count := 2
            denied_count := 1 } := by
  have h := ((C8_bulk_cap_and_no_short_circuit
    (fun r => if r.action = "bad" then .buildErr "boom"
              else .decision true ["p0"] [])
    [{ principal := "U", action := "read", resource := "F" },
     { principal := "U", action := "bad", resource := "F" },
     { principal := "U", action := "read", resource := "G" }]).1
    (by decide) (by decide)).1
  rw [h]
  rfl

/-- The linkage condition the verify loop maintains, relative to the
expected previous hash. -/
def linkOk (prev : Option String) : List HashableEvent → Prop
  | [] => True
  | e :: rest => e.previous_hash = prev ∧ linkOk (some (computeHash e)) rest

/-- Chain validity as the claim states it: the first event carries no
previous hash and every later event carries the SHA-256 hash of the
canonicalized predecessor. -/
def specChainOk (events : List HashableEvent) : Prop :=
  (∀ e, events.get? 0 = some e → e.previous_hash = none) ∧
  (∀ i e1 e2, events.get? i = some e1 → events.get? (i + 1) = some e2 →
    e2.previous_hash = some (computeHash e1))

/-- Violation of the chain condition at one index, relative to the expected
previous hash of the first element. -/
def violFrom (prev : Option String) (l : List HashableEvent) : Nat → Prop
  | 0 => ∃ e, l.get? 0 = some e ∧ e.previous_hash ≠ prev
  | i + 1 => ∃ e1 e2, l.get? i = some e1 ∧ l.get? (i + 1) = some e2 ∧
      e2.previous_hash ≠ some (computeHash e1)

/-- Violation of the chain condition of the claim at index i: the head must
carry no previous hash; a later event must carry the hash of its
predecessor. -/
def violationAt (events : List HashableEvent) (i : Nat) : Prop :=
  violFrom none events i

/-- Helper: the verify loop succeeds exactly on linked suffixes. -/
lemma verifyFrom_iff_linkOk :
    ∀ (l : List HashableEvent) (prev : Option String),
      verifyFrom prev l = true ↔ linkOk prev l := by
  intro l
  induction l with
  | nil => intro prev; simp [verifyFrom, linkOk]
  | cons e rest ih =>
    intro prev
    unfold verifyFrom linkOk
    by_cases h : e.previous_hash = prev
    · rw [if_pos h]
      simp [h, ih]
    · rw [if_neg h]
      simp [h]

/-- Helper: the linkage condition in index form. -/
lemma linkOk_iff_pairs :
    ∀ (l : List HashableEvent) (prev : Option String),
      linkOk prev l ↔
        ((∀ e, l.get? 0 = some e → e.previous_hash = prev) ∧
         (∀ i e1 e2, l.get? i = some e1 → l.get? (i + 1) = some e2 →
           e2.previous_hash = some (computeHash e1))) := by
  intro l
  induction l with
  | nil =>
    intro prev
    simp [linkOk]
  | cons e rest ih =>
    intro prev
    unfold linkOk
    constructor
    · rintro ⟨h1, h2⟩
      obtain ⟨hh, hp⟩ := (ih (some (computeHash e))).mp h2
      constructor
      · intro e0 he0
        rw [List.get?_cons_zero] at he0
        injection he0 with he0
        rw [← he0]
        exact h1
      · intro i e1 e2 h3 h4
        cases i with
        | zero =>
          rw [List.get?_cons_zero] at h3
          injection h3 with h3
          rw [List.get?_cons_succ] at h4
          rw [← h3]
          exact hh e2 h4
        | succ j =>
          rw [List.get?_cons_succ] at h3
          rw [List.get?_cons_succ] at h4
          exact hp j e1 e2 h3 h4
    · rintro ⟨hhead, hpairs⟩
      refine ⟨hhead e (by rw [List.get?_cons_zero]), ?_⟩
      refine (ih (some (computeHash e))).mpr ⟨?_, ?_⟩
      · intro e2 he2
        exact hpairs 0 e e2 (by rw [List.get?_cons_zero])
          (by rw [List.get?_cons_succ]; exact he2)
      · intro j e1 e2 h3 h4
        exact hpairs (j + 1) e1 e2 (by rw [List.get?_cons_succ]; exact h3)
          (by rw [List.get?_cons_succ]; exact h4)

/-- Helper: the break finder returns none exactly when the verify loop
succeeds. -/
lemma findBreakFrom_none_iff :
    ∀ (l : List HashableEvent) (prev : Option String) (idx : Nat),
      findBreakFrom prev idx l = none ↔ verifyFrom prev l = true := by
  intro l
  induction l with
  | nil => intro prev idx; simp [findBreakFrom, verifyFrom]
  | cons e rest ih =>
    intro prev idx
    unfold findBreakFrom verifyFrom
    by_cases h : e.previous_hash = prev
    · rw [if_pos h, if_pos h]
      exact ih (some (computeHash e)) (idx + 1)
    · rw [if_neg h, if_neg h]
      simp

/-- Helper: the break finder only offsets its starting index. -/
lemma findBreakFrom_offset :
    ∀ (l : List HashableEvent) (prev : Option String) (idx : Nat),
      findBreakFrom prev idx l =
        (findBreakFrom prev 0 l).map (fun k => idx + k) := by
  intro l
  induction l with
  | nil => intro prev idx; rfl
  | cons e rest ih =>
    intro prev idx
    unfold findBreakFrom
    by_cases h : e.previous_hash = prev
    · rw [if_pos h, if_pos h]
      rw [ih (some (computeHash e)) (idx + 1), ih (some (computeHash e)) 1]
      cases findBreakFrom (some (computeHash e)) 0 rest with
      | none => rfl
      | some k => exact congrArg some (show idx + 1 + k = idx + (1 + k) by omega)
    · rw [if_neg h, if_neg h]
      exact congrArg some (show idx = idx + 0 by omega)

/-- Helper: shifting a violation index across the list head. -/
lemma violFrom_shift (e : HashableEvent) (rest : List HashableEvent)
    (prev : Option String) :
    ∀ j, violFrom prev (e :: rest) (j + 1) ↔
      violFrom (some (computeHash e)) rest j := by
  intro j
  cases j with
  | zero =>
    unfold violFrom
    constructor
    · rintro ⟨e1, e2, h1, h2, h3⟩
      rw [List.get?_cons_zero] at h1
      injection h1 with h1
      rw [List.get?_cons_succ] at h2
      exact ⟨e2, h2, by rw [h1]; exact h3⟩
    · rintro ⟨e2, h2, h3⟩
      exact ⟨e, e2, by rw [List.get?_cons_zero],
        by rw [List.get?_cons_succ]; exact h2, h3⟩
  | succ j0 =>
    unfold violFrom
    constructor
    · rintro ⟨e1, e2, h1, h2, h3⟩
      rw [List.get?_cons_succ] at h1
      rw [List.get?_cons_succ] at h2
      exact ⟨e1, e2, h1, h2, h3⟩
    · rintro ⟨e1, e2, h1, h2, h3⟩
      exact ⟨e1, e2, by rw [List.get?_cons_succ]; exact h1,
        by rw [List.get?_cons_succ]; exact h2, h3⟩

/-- Helper: when the break finder reports an index, that index is the first
violation. -/
lemma findBreakFrom_some_first :
    ∀ (l : List HashableEvent) (prev : Option String) (k : Nat),
      findBreakFrom prev 0 l = some k →
      violFrom prev l k ∧ ∀ j, j < k → ¬ violFrom prev l j := by
  intro l
  induction l with
  | nil =>
    intro prev k h
    exact absurd h (by simp [findBreakFrom])
  | cons e rest ih =>
    intro prev k h
    unfold findBreakFrom at h
    by_cases hp : e.previous_hash = prev
    · rw [if_pos hp, findBreakFrom_offset rest (some (computeHash e)) 1] at h
      cases hfb : findBreakFrom (some (computeHash e)) 0 rest with
      | none => rw [hfb] at h; exact Option.noConfusion h
      | some k0 =>
        rw [hfb] at h
        have h2 : 1 + k0 = k := by injection h
        clear h
        obtain ⟨hv, hmin⟩ := ih (some (computeHash e)) k0 hfb
        constructor
        · rw [← h2, Nat.add_comm]
          exact (violFrom_shift e rest prev k0).mpr hv
        · intro j hj
          cases j with
          | zero =>
            rintro ⟨e0, he0, hne⟩
            rw [List.get?_cons_zero] at he0
            injection he0 with he0
            rw [he0] at hp
            exact hne hp
          | succ j0 =>
            intro hviol
            have hj0 : j0 < k0 := by omega
            exact hmin j0 hj0 ((violFrom_shift e rest prev j0).mp hviol)
    · rw [if_neg hp] at h
      injection h with h
      constructor
      · rw [← h]
        exact ⟨e, by rw [List.get?_cons_zero], hp⟩
      · intro j hj
        omega

/-- Helper: chain validity as claimed coincides with the loop linkage
condition started at none. -/
lemma specChainOk_iff_linkOk (l : List HashableEvent) :
    specChainOk l ↔ linkOk none l := by
  unfold specChainOk
  exact (linkOk_iff_pairs l none).symm

/-- Claim C3: verify_chain accepts exactly the chains whose head carries no
previous hash and whose every later event carries the SHA-256 hash of the
canonicalized predecessor; find_chain_break returns none exactly on such
chains, and whenever it returns an index, that index is the first event
violating the condition. -/
theorem C3_verify_chain_and_find_break (events : List HashableEvent) :
    (verifyChain events = true ↔ specChainOk events) ∧
    (findChainBreak events = none ↔ specChainOk events) ∧
    (∀ i, findChainBreak events = some i →
      violationAt events i ∧ ∀ j, j < i → ¬ violationAt events j) := by
  cases events with
  | nil =>
    refine ⟨?_, ?_, ?_⟩
    · constructor
      · intro _
        exact ⟨fun e he => Option.noConfusion he,
          fun i e1 e2 h1 _ => Option.noConfusion h1⟩
      · intro _
        rfl
    · constructor
      · intro _
        exact ⟨fun e he => Option.noConfusion he,
          fun i e1 e2 h1 _ => Option.noConfusion h1⟩
      · intro _
        rfl
    · intro i hi
      exact Option.noConfusion hi
  | cons e rest =>
    cases hh : e.previous_hash with
    | some p =>
      have hvc : verifyChain (e :: rest) = false := by
        simp only [verifyChain]
        rw [if_pos (by rw [hh]; rfl)]
      have hfcb : findChainBreak (e :: rest) = some 0 := by
        simp only [findChainBreak]
        rw [if_pos (by rw [hh]; rfl)]
      have hnotspec : ¬ specChainOk (e :: rest) := by
        rintro ⟨h1, _⟩
        have h2 := h1 e (by rw [List.get?_cons_zero])
        rw [hh] at h2
        exact Option.noConfusion h2
      refine ⟨?_, ?_, ?_⟩
      · rw [hvc]
        simp [hnotspec]
      · rw [hfcb]
        simp [hnotspec]
      · intro i hi
        rw [hfcb] at hi
        have hi0 : 0 = i := by injection hi
        constructor
        · rw [← hi0]
          exact ⟨e, by rw [List.get?_cons_zero], by rw [hh]; simp⟩
        · intro j hj
          rw [← hi0] at hj
          exact absurd hj (by omega)
    | none =>
      have hvc : verifyChain (e :: rest) = verifyFrom none (e :: rest) := by
        simp only [verifyChain]
        rw [if_neg (by rw [hh]; simp)]
      have hfcb : findChainBreak (e :: rest) =
          findBreakFrom none 0 (e :: rest) := by
        simp only [findChainBreak]
        rw [if_neg (by rw [hh]; simp)]
      refine ⟨?_, ?_, ?_⟩
      · rw [hvc, verifyFrom_iff_linkOk, specChainOk_iff_linkOk]
      · rw [hfcb, findBreakFrom_none_iff, verifyFrom_iff_linkOk,
          specChainOk_iff_linkOk]
      · intro i hi
        rw [hfcb] at hi
        exact findBreakFrom_some_first (e :: rest) none i hi

/-- Concrete single-event chain for the C3 witness. -/
def evW : HashableEvent :=
  { id := 1, tenant_id := 2, actor_identity_id := none,
    event_type := "authentication", action := "login",
    resource_type := "identity", resource_id := none,
    decision := some "allow", timestamp := "2026-01-01T00:00:00Z",
    previous_hash := none, metadata := Json.obj [] }

/-- Witness for claim C3 at a concrete input: a one-event chain with no
previous hash verifies and has no break. -/
theorem C3_verify_chain_witness :
    verifyChain [evW] = true ∧ findChainBreak [evW] = none := by
  have hspec : specChainOk [evW] := by
    constructor
    · intro e he
      injection he with he
      rw [← he]
      rfl
    · intro i e1 e2 h1 h2
      cases i with
      | zero => exact Option.noConfusion h2
      | succ j => exact Option.noConfusion h1
  exact ⟨(C3_verify_chain_and_find_break [evW]).1.mpr hspec,
    (C3_verify_chain_and_find_break [evW]).2.1.mpr hspec⟩
